import Mathlib

/-!
Verification of the banking core (accounts and transfers).

Shallow embedding of the ledger logic of `main.py`, `schemas.py` and
`database.py`: accounts hold exact decimal balances (`Decimal` in Python,
modelled as `ℚ`, of which every finite decimal is an exact element), and
`create_transfer` validates a transfer request and applies the balance
deltas.  The FastAPI/pydantic request pipeline (schema validation of the
request body, then the endpoint function) is modelled by the
`request_create_*` wrappers; the endpoint functions themselves keep their
Python names.  The database session is modelled as an explicit
`BankState`; `db.query(...).first()` becomes `List.find?`, and the two
ORM object mutations plus `db.add`/`db.commit` become a single pure state
update (which is also how SQLAlchemy commits them: one transaction).
-/

/-- Outcomes (`Except`) are compared in concrete witnesses, so equality
must be decidable. -/
instance {ε α : Type} [DecidableEq ε] [DecidableEq α] : DecidableEq (Except ε α) := fun x y =>
  match x, y with
  | .ok a, .ok b =>
    if h : a = b then .isTrue (by rw [h]) else .isFalse (by simp [h])
  | .error e, .error f =>
    if h : e = f then .isTrue (by rw [h]) else .isFalse (by simp [h])
  | .ok _, .error _ => .isFalse (by simp)
  | .error _, .ok _ => .isFalse (by simp)

namespace Banking

/-- Python `str.upper()` (character-wise uppercasing; on the ASCII
3-letter currency codes it agrees with `Char.toUpper` applied to each
character, which is how Lean's own `String.toUpper` is defined). -/
def upper (c : String) : String := ⟨c.data.map Char.toUpper⟩

/-- `database.py` `Account` row: id, owner, type, 3-letter currency code,
exact decimal balance.  `created_at` is omitted (no claim mentions it). -/
structure Account where
  id : Nat
  user_id : Nat
  account_type : String
  currency : String
  balance : ℚ
deriving Repr, DecidableEq

/-- `database.py` `Transfer` row (journal entry); `created_at` omitted. -/
structure Transfer where
  id : Nat
  from_account_id : Nat
  to_account_id : Nat
  amount : ℚ
deriving Repr, DecidableEq

/-- The database state seen by the endpoints: the `accounts` and
`transfers` tables plus the primary-key sequences that assign fresh ids
on `db.commit`/`db.refresh`. -/
structure BankState where
  accounts : List Account
  transfers : List Transfer
  nextAccountId : Nat
  nextTransferId : Nat
deriving Repr, DecidableEq

/-- Empty database (what `init_db` creates; serial ids start at 1). -/
def initialState : BankState := ⟨[], [], 1, 1⟩

/-- `schemas.py` `AccountCreate` request body. -/
structure AccountCreate where
  account_type : String
  currency : String
  balance : ℚ
deriving Repr, DecidableEq

/-- pydantic validation of `AccountCreate`:
`account_type: min_length=1, max_length=50`,
`currency: min_length=3, max_length=3`,
`balance: ge=0` (default 0). -/
def AccountCreate.valid (d : AccountCreate) : Bool :=
  1 ≤ d.account_type.length && d.account_type.length ≤ 50 &&
  d.currency.length = 3 && 0 ≤ d.balance

/-- `schemas.py` `TransferCreate` request body. -/
structure TransferCreate where
  from_account_id : Nat
  to_account_id : Nat
  amount : ℚ
deriving Repr, DecidableEq

/-- pydantic validation of `TransferCreate`: `amount: gt=0`.
No scale (`decimal_places`) constraint is declared. -/
def TransferCreate.valid (t : TransferCreate) : Bool :=
  0 < t.amount

/-- The typed failures of the transfer path.  The first is the pydantic
422 on the request body; the rest are the `HTTPException`s raised by
`create_transfer`, in source order. -/
inductive TransferError where
  | invalidAmount
  | sourceNotFound
  | notOwner
  | destNotFound
  | currencyMismatch
  | insufficientBalance
  | sameAccount
deriving Repr, DecidableEq

/-- The error value of `get_account`'s 404 (`HTTPException(status_code=404,
detail="Account not found")`): status code and detail string, kept verbatim
because the claim is that two situations yield the *same* error. -/
structure HTTPError where
  status : Nat
  detail : String
deriving Repr, DecidableEq

/-- `db.query(Account).filter(Account.id == accountId).first()`. -/
def findAccount (s : BankState) (accountId : Nat) : Option Account :=
  s.accounts.find? (fun a => a.id == accountId)

/-- `main.py` `create_account`: stores the account with
`currency=account_data.currency.upper()` and the supplied balance, under
a fresh id, for the authenticated user.  Returns the new state and the
created account (the response). -/
def create_account (s : BankState) (userId : Nat) (d : AccountCreate) :
    BankState × Account :=
  let account : Account :=
    { id := s.nextAccountId
      user_id := userId
      account_type := d.account_type
      currency := upper d.currency
      balance := d.balance }
  ({ s with
      accounts := s.accounts ++ [account]
      nextAccountId := s.nextAccountId + 1 },
   account)

/-- `main.py` `get_account`: `db.query(Account).filter(Account.id ==
account_id, Account.user_id == current_user.id).first()`; 404
`"Account not found"` when the filter finds nothing. -/
def get_account (s : BankState) (userId : Nat) (accountId : Nat) :
    Except HTTPError Account :=
  match s.accounts.find? (fun a => a.id == accountId && a.user_id == userId) with
  | some account => .ok account
  | none => .error ⟨404, "Account not found"⟩

/-- The balance mutations of the commit path of `create_transfer`:
`from_account.balance -= amount` and `to_account.balance += amount`
(the two ORM objects are rows of distinct ids — the same-account case
was already rejected). -/
def applyDelta (t : TransferCreate) (a : Account) : Account :=
  if a.id = t.from_account_id then { a with balance := a.balance - t.amount }
  else if a.id = t.to_account_id then { a with balance := a.balance + t.amount }
  else a

/-- The `Transfer` row inserted by the commit path, with the id the
primary-key sequence assigns at `db.commit`/`db.refresh`. -/
def committedTransfer (s : BankState) (t : TransferCreate) : Transfer :=
  { id := s.nextTransferId
    from_account_id := t.from_account_id
    to_account_id := t.to_account_id
    amount := t.amount }

/-- The post-commit state: both balance updates and the journal insert
are flushed by the single `db.commit()`. -/
def commitState (s : BankState) (t : TransferCreate) : BankState :=
  { s with
      accounts := s.accounts.map (applyDelta t)
      transfers := s.transfers ++ [committedTransfer s t]
      nextTransferId := s.nextTransferId + 1 }

/-- `main.py` `create_transfer`, line by line.  Returns the state as it
stands when the function returns (unchanged on every `raise`, updated on
commit) together with the outcome. -/
def create_transfer (s : BankState) (userId : Nat) (t : TransferCreate) :
    BankState × Except TransferError Transfer :=
  match findAccount s t.from_account_id with
  | none => (s, .error .sourceNotFound)
  | some from_account =>
    if from_account.user_id ≠ userId then
      (s, .error .notOwner)
    else match findAccount s t.to_account_id with
      | none => (s, .error .destNotFound)
      | some to_account =>
        if from_account.currency ≠ to_account.currency then
          (s, .error .currencyMismatch)
        else if from_account.balance < t.amount then
          (s, .error .insufficientBalance)
        else if t.from_account_id = t.to_account_id then
          (s, .error .sameAccount)
        else
          (commitState s t, .ok (committedTransfer s t))

/-- The full `POST /accounts` pipeline: pydantic body validation (422 on
failure, modelled as `none`) and then the endpoint. -/
def request_create_account (s : BankState) (userId : Nat) (d : AccountCreate) :
    Option (BankState × Account) :=
  if d.valid then some (create_account s userId d) else none

/-- The full `POST /transfers` pipeline: pydantic validates
`amount > 0` before `create_transfer` runs; a body failing it never
reaches the endpoint (422, modelled as `invalidAmount` with the state
untouched). -/
def request_create_transfer (s : BankState) (userId : Nat) (t : TransferCreate) :
    BankState × Except TransferError Transfer :=
  if t.valid then create_transfer s userId t else (s, .error .invalidAmount)

/-- The error component of an outcome, `none` on success. -/
def errorOf {ε α : Type} : Except ε α → Option ε
  | .error e => some e
  | .ok _ => none

/-- States reachable from the empty database by any sequence of
(validated) `POST /accounts` and `POST /transfers` requests. -/
inductive Reachable : BankState → Prop
  | init : Reachable initialState
  | account {s : BankState} {u : Nat} {d : AccountCreate} {s' : BankState}
      {a : Account} (hs : Reachable s)
      (h : request_create_account s u d = some (s', a)) : Reachable s'
  | transfer {s : BankState} {u : Nat} {t : TransferCreate} {s' : BankState}
      {tr : Transfer} (hs : Reachable s)
      (h : request_create_transfer s u t = (s', .ok tr)) : Reachable s'

/-! ## Vocabulary for the validation-order and scale claims

Each check of the transfer path, as an independent predicate on the
request (not presupposing the outcome of any other check), so that
"first violated check" can be stated without following the source's
own control flow. -/

/-- Check 1 violated: no account row has the source id. -/
def sourceMissing (s : BankState) (t : TransferCreate) : Bool :=
  (findAccount s t.from_account_id).isNone

/-- Check 2 violated: the source row found is not owned by the requestor. -/
def sourceNotOwned (s : BankState) (userId : Nat) (t : TransferCreate) : Bool :=
  match findAccount s t.from_account_id with
  | some fa => fa.user_id != userId
  | none => false

/-- Check 3 violated: no account row has the destination id. -/
def destMissing (s : BankState) (t : TransferCreate) : Bool :=
  (findAccount s t.to_account_id).isNone

/-- Check 4 violated: both rows found but of different currencies. -/
def currenciesDiffer (s : BankState) (t : TransferCreate) : Bool :=
  match findAccount s t.from_account_id, findAccount s t.to_account_id with
  | some fa, some ta => fa.currency != ta.currency
  | _, _ => false

/-- Check 5 violated: the source row found holds less than the amount. -/
def balanceInsufficient (s : BankState) (t : TransferCreate) : Bool :=
  match findAccount s t.from_account_id with
  | some fa => fa.balance < t.amount
  | none => false

/-- Check 6 violated: source and destination ids coincide. -/
def sameAccountIds (t : TransferCreate) : Bool :=
  t.from_account_id == t.to_account_id

/-- A rational is exactly representable with 2 fractional decimal digits
(the scale of Python `Decimal` money values and of the `Numeric(15, 2)`
columns) iff its reduced denominator divides 100. -/
def scale2 (q : ℚ) : Bool := q.den ∣ 100

/-- Check 7 violated, as the spec words it: the amount is not a
positive, correctly-scaled value. -/
def amountInvalid (t : TransferCreate) : Bool :=
  !(0 < t.amount : Bool) || !scale2 t.amount

/-- The order the spec claims for §4.1: checks (1)–(7) in that sequence,
the amount check *last*.  This follows the spec's words, to be compared
with the behaviour of the source. -/
def claimedFirstError (s : BankState) (userId : Nat) (t : TransferCreate) :
    Option TransferError :=
  if sourceMissing s t then some .sourceNotFound
  else if sourceNotOwned s userId t then some .notOwner
  else if destMissing s t then some .destNotFound
  else if currenciesDiffer s t then some .currencyMismatch
  else if balanceInsufficient s t then some .insufficientBalance
  else if sameAccountIds t then some .sameAccount
  else if amountInvalid t then some .invalidAmount
  else none

/-- The order the code actually applies: pydantic's positivity check
first (422 before the endpoint runs; scale is checked nowhere), then
checks (1)–(6) in the source's order. -/
def firstViolation (s : BankState) (userId : Nat) (t : TransferCreate) :
    Option TransferError :=
  if !t.valid then some .invalidAmount
  else if sourceMissing s t then some .sourceNotFound
  else if sourceNotOwned s userId t then some .notOwner
  else if destMissing s t then some .destNotFound
  else if currenciesDiffer s t then some .currencyMismatch
  else if balanceInsufficient s t then some .insufficientBalance
  else if sameAccountIds t then some .sameAccount
  else none

/-- Replace the owner of the account with the given id (used to state
that the outcome of a transfer does not depend on who owns the
destination). -/
def setOwner (s : BankState) (accountId newOwner : Nat) : BankState :=
  { s with
      accounts := s.accounts.map (fun a =>
        if a.id = accountId then { a with user_id := newOwner } else a) }

/-- The inductive invariant of reachable database states: balances are
non-negative, every id is below the id sequence, and ids are distinct
(they are primary keys). -/
def Inv (s : BankState) : Prop :=
  (∀ a ∈ s.accounts, 0 ≤ a.balance) ∧
  (∀ a ∈ s.accounts, a.id < s.nextAccountId) ∧
  s.accounts.Pairwise (fun a b => a.id ≠ b.id)

/-! ## Concrete fixtures used by witnesses and counterexamples -/

/-- The exact decimal 0.005: positive, but not representable at scale 2. -/
def q0005 : ℚ := ⟨1, 200, by norm_num, by norm_num⟩

/-- A user-1 account with id 1 and balance 1000. -/
def acctA : Account := ⟨1, 1, "savings", "USD", 1000⟩

/-- A user-2 account with id 2 and balance 500, same currency. -/
def acctB : Account := ⟨2, 2, "checking", "USD", 500⟩

/-- A two-account database. -/
def twoAccounts : BankState := ⟨[acctA, acctB], [], 3, 1⟩

/-! ## Helper lemmas -/

theorem applyDelta_id (t : TransferCreate) (a : Account) :
    (applyDelta t a).id = a.id := by
  unfold applyDelta
  split_ifs <;> rfl

theorem findAccount_commitState (s : BankState) (t : TransferCreate) (x : Nat) :
    findAccount (commitState s t) x = (findAccount s x).map (applyDelta t) := by
  have hacc : (commitState s t).accounts = s.accounts.map (applyDelta t) := rfl
  have hp : ((fun a : Account => a.id == x) ∘ applyDelta t) =
      (fun a : Account => a.id == x) := by
    funext a
    simp [Function.comp, applyDelta_id]
  unfold findAccount
  rw [hacc, List.find?_map, hp]

theorem create_transfer_ok_iff {s : BankState} {u : Nat} {t : TransferCreate}
    {s' : BankState} {tr : Transfer} :
    create_transfer s u t = (s', .ok tr) ↔
      ∃ fa ta : Account,
        findAccount s t.from_account_id = some fa ∧
        fa.user_id = u ∧
        findAccount s t.to_account_id = some ta ∧
        fa.currency = ta.currency ∧
        ¬ fa.balance < t.amount ∧
        t.from_account_id ≠ t.to_account_id ∧
        s' = commitState s t ∧ tr = committedTransfer s t := by
  unfold create_transfer
  cases hf : findAccount s t.from_account_id with
  | none => simp
  | some fa =>
    by_cases ho : fa.user_id = u
    · cases ht : findAccount s t.to_account_id with
      | none => simp [ho, ht]
      | some ta =>
        by_cases hc : fa.currency = ta.currency
        · by_cases hb : fa.balance < t.amount
          · simp [ho, ht, hc, hb]
          · by_cases hsame : t.from_account_id = t.to_account_id
            · simp [ho, ht, hc, hb, hsame]
            · simp [ho, ht, hc, hb, hsame, Prod.ext_iff, eq_comm]
              exact fun _ _ => le_of_not_lt hb
        · simp [ho, ht, hc]
    · simp [ho]

theorem request_error_eq_firstViolation (s : BankState) (u : Nat) (t : TransferCreate) :
    errorOf (request_create_transfer s u t).2 = firstViolation s u t := by
  unfold request_create_transfer firstViolation
  by_cases hv : t.valid
  · rw [if_pos hv]
    simp only [hv, Bool.not_true, Bool.false_eq_true, if_false]
    unfold create_transfer
    cases hf : findAccount s t.from_account_id with
    | none =>
      simp [errorOf, sourceMissing, hf]
    | some fa =>
      have h1 : sourceMissing s t = false := by simp [sourceMissing, hf]
      by_cases ho : fa.user_id = u
      · have h2 : sourceNotOwned s u t = false := by simp [sourceNotOwned, hf, ho]
        cases ht : findAccount s t.to_account_id with
        | none =>
          have h3 : destMissing s t = true := by simp [destMissing, ht]
          simp [errorOf, h1, h2, h3, ho]
        | some ta =>
          have h3 : destMissing s t = false := by simp [destMissing, ht]
          by_cases hc : fa.currency = ta.currency
          · have h4 : currenciesDiffer s t = false := by
              simp [currenciesDiffer, hf, ht, hc]
            by_cases hb : fa.balance < t.amount
            · have h5 : balanceInsufficient s t = true := by
                simp [balanceInsufficient, hf, hb]
              simp [errorOf, h1, h2, h3, h4, h5, ho, hc, hb]
            · have h5 : balanceInsufficient s t = false := by
                simp [balanceInsufficient, hf, hb]
              by_cases hsame : t.from_account_id = t.to_account_id
              · have h6 : sameAccountIds t = true := by simp [sameAccountIds, hsame]
                simp [errorOf, h1, h2, h3, h4, h5, h6, ho, hc, hb, hsame]
              · have h6 : sameAccountIds t = false := by simp [sameAccountIds, hsame]
                simp [errorOf, h1, h2, h3, h4, h5, h6, ho, hc, hb, hsame]
          · have h4 : currenciesDiffer s t = true := by
              simp [currenciesDiffer, hf, ht, hc]
            simp [errorOf, h1, h2, h3, h4, ho, hc]
      · have h2 : sourceNotOwned s u t = true := by simp [sourceNotOwned, hf, ho]
        simp [errorOf, h1, h2, ho]
  · rw [if_neg hv]
    simp [errorOf, hv]

theorem mem_eq_of_id_eq {l : List Account}
    (hnd : l.Pairwise (fun a b => a.id ≠ b.id))
    {x y : Account} (hx : x ∈ l) (hy : y ∈ l) (h : x.id = y.id) : x = y := by
  by_contra hne
  have hsymm : Symmetric (fun a b : Account => a.id ≠ b.id) :=
    fun _ _ hab he => hab he.symm
  exact hnd.forall hsymm hx hy hne h

theorem findAccount_mem {s : BankState} {x : Nat} {a : Account}
    (h : findAccount s x = some a) : a ∈ s.accounts :=
  List.mem_of_find?_eq_some h

theorem findAccount_id {s : BankState} {x : Nat} {a : Account}
    (h : findAccount s x = some a) : a.id = x := by
  have := List.find?_some h
  simpa using this

theorem inv_initialState : Inv initialState := by
  refine ⟨?_, ?_, ?_⟩ <;> simp [initialState]

theorem inv_create_account {s : BankState} {u : Nat} {d : AccountCreate}
    {s' : BankState} {a : Account}
    (hInv : Inv s) (h : request_create_account s u d = some (s', a)) : Inv s' := by
  unfold request_create_account at h
  by_cases hv : d.valid
  · rw [if_pos hv] at h
    have hbal0 : 0 ≤ d.balance := by
      unfold AccountCreate.valid at hv
      simp only [Bool.and_eq_true, decide_eq_true_eq] at hv
      exact hv.2
    obtain ⟨hpos, hid, hnd⟩ := hInv
    have hs' : s' = (create_account s u d).1 :=
      (congrArg Prod.fst (Option.some.inj h)).symm
    subst hs'
    have hlist : (create_account s u d).1.accounts =
        s.accounts ++ [⟨s.nextAccountId, u, d.account_type, upper d.currency, d.balance⟩] := rfl
    have hnext : (create_account s u d).1.nextAccountId = s.nextAccountId + 1 := rfl
    refine ⟨?_, ?_, ?_⟩
    · intro x hx
      rw [hlist] at hx
      rcases List.mem_append.mp hx with hx | hx
      · exact hpos x hx
      · rcases List.mem_singleton.mp hx with rfl
        exact hbal0
    · intro x hx
      rw [hlist] at hx
      rw [hnext]
      rcases List.mem_append.mp hx with hx | hx
      · exact Nat.lt_succ_of_lt (hid x hx)
      · rcases List.mem_singleton.mp hx with rfl
        exact Nat.lt_succ_self _
    · rw [hlist, List.pairwise_append]
      refine ⟨hnd, List.pairwise_singleton _ _, ?_⟩
      intro x hx y hy
      rcases List.mem_singleton.mp hy with rfl
      exact Nat.ne_of_lt (hid x hx)
  · rw [if_neg hv] at h
    exact absurd h (by simp)

theorem inv_create_transfer {s s' : BankState} {u : Nat} {t : TransferCreate}
    {tr : Transfer} (hInv : Inv s)
    (h : request_create_transfer s u t = (s', .ok tr)) : Inv s' := by
  unfold request_create_transfer at h
  by_cases hv : t.valid
  · rw [if_pos hv] at h
    obtain ⟨fa, ta, hfa, _, _, _, hbal, _, hs', _⟩ := create_transfer_ok_iff.mp h
    subst hs'
    have hamount : 0 < t.amount := by
      simpa [TransferCreate.valid] using hv
    obtain ⟨hpos, hid, hnd⟩ := hInv
    have hacc : (commitState s t).accounts = s.accounts.map (applyDelta t) := rfl
    refine ⟨?_, ?_, ?_⟩
    · intro x hx
      rw [hacc] at hx
      obtain ⟨y, hy, rfl⟩ := List.mem_map.mp hx
      unfold applyDelta
      split_ifs with h1 h2
      · have hyfa : y = fa :=
          mem_eq_of_id_eq hnd hy (findAccount_mem hfa) (h1.trans (findAccount_id hfa).symm)
        subst hyfa
        simpa using sub_nonneg.mpr (le_of_not_lt hbal)
      · simpa using add_nonneg (hpos y hy) (le_of_lt hamount)
      · exact hpos y hy
    · intro x hx
      rw [hacc] at hx
      obtain ⟨y, hy, rfl⟩ := List.mem_map.mp hx
      rw [applyDelta_id]
      exact hid y hy
    · rw [hacc, List.pairwise_map]
      refine hnd.imp ?_
      intro a b hab
      rw [applyDelta_id, applyDelta_id]
      exact hab
  · rw [if_neg hv] at h
    exact absurd (congrArg Prod.snd h) (by simp)

theorem reachable_inv {s : BankState} (h : Reachable s) : Inv s := by
  induction h with
  | init => exact inv_initialState
  | account _ h ih => exact inv_create_account ih h
  | transfer _ h ih => exact inv_create_transfer ih h

theorem create_transfer_cases (s : BankState) (u : Nat) (t : TransferCreate) :
    ((create_transfer s u t).1 = s ∧
      ∃ e, e ≠ TransferError.invalidAmount ∧ (create_transfer s u t).2 = .error e) ∨
    create_transfer s u t = (commitState s t, .ok (committedTransfer s t)) := by
  unfold create_transfer
  split
  · exact Or.inl ⟨rfl, .sourceNotFound, by simp, rfl⟩
  · split
    · exact Or.inl ⟨rfl, .notOwner, by simp, rfl⟩
    · split
      · exact Or.inl ⟨rfl, .destNotFound, by simp, rfl⟩
      · split
        · exact Or.inl ⟨rfl, .currencyMismatch, by simp, rfl⟩
        · split
          · exact Or.inl ⟨rfl, .insufficientBalance, by simp, rfl⟩
          · split
            · exact Or.inl ⟨rfl, .sameAccount, by simp, rfl⟩
            · exact Or.inr rfl

theorem findAccount_setOwner (s : BankState) (i w x : Nat) :
    findAccount (setOwner s i w) x =
      (findAccount s x).map
        (fun a => if a.id = i then { a with user_id := w } else a) := by
  have hacc : (setOwner s i w).accounts =
      s.accounts.map (fun a => if a.id = i then { a with user_id := w } else a) := rfl
  have hp : ((fun a : Account => a.id == x) ∘
        (fun a => if a.id = i then { a with user_id := w } else a)) =
      (fun a : Account => a.id == x) := by
    funext a
    simp only [Function.comp]
    split_ifs <;> rfl
  unfold findAccount
  rw [hacc, List.find?_map, hp]

/-! ## The claims -/

/-- C1.  Conservation: a committed transfer of amount A from X to Y
leaves X at `balance(X) - A` and Y at `balance(Y) + A`, so the sum of the
two balances is preserved; the arithmetic is exact (the balances live in
`ℚ`, where every `Decimal` value embeds exactly — no rounding occurs). -/
theorem transfer_conservation {s : BankState} {u : Nat} {t : TransferCreate}
    {s' : BankState} {tr : Transfer} {fa ta : Account}
    (h : request_create_transfer s u t = (s', .ok tr))
    (hfa : findAccount s t.from_account_id = some fa)
    (hta : findAccount s t.to_account_id = some ta) :
    findAccount s' t.from_account_id = some { fa with balance := fa.balance - t.amount } ∧
    findAccount s' t.to_account_id = some { ta with balance := ta.balance + t.amount } ∧
    (fa.balance - t.amount) + (ta.balance + t.amount) = fa.balance + ta.balance := by
  unfold request_create_transfer at h
  by_cases hv : t.valid
  · rw [if_pos hv] at h
    obtain ⟨fa', ta', hfa', _, hta', _, _, hne, hs', _⟩ := create_transfer_ok_iff.mp h
    obtain rfl : fa' = fa := Option.some.inj (hfa'.symm.trans hfa)
    obtain rfl : ta' = ta := Option.some.inj (hta'.symm.trans hta)
    subst hs'
    refine ⟨?_, ?_, by ring⟩
    · rw [findAccount_commitState, hfa]
      simp only [Option.map_some']
      unfold applyDelta
      rw [if_pos (findAccount_id hfa)]
    · rw [findAccount_commitState, hta]
      simp only [Option.map_some']
      unfold applyDelta
      rw [if_neg (fun hh => hne (((findAccount_id hta).symm.trans hh).symm)),
        if_pos (findAccount_id hta)]
  · rw [if_neg hv] at h
    exact absurd (congrArg Prod.snd h) (by simp)

/-- C1 witness: user 1 transfers 200 from account 1 (balance 1000) to
account 2 (balance 500). -/
theorem transfer_conservation_witness :
    findAccount (commitState twoAccounts ⟨1, 2, 200⟩) 1 =
      some { acctA with balance := acctA.balance - (200 : ℚ) } ∧
    findAccount (commitState twoAccounts ⟨1, 2, 200⟩) 2 =
      some { acctB with balance := acctB.balance + (200 : ℚ) } ∧
    (acctA.balance - (200 : ℚ)) + (acctB.balance + (200 : ℚ)) =
      acctA.balance + acctB.balance :=
  @transfer_conservation twoAccounts 1 ⟨1, 2, 200⟩
    (commitState twoAccounts ⟨1, 2, 200⟩)
    (committedTransfer twoAccounts ⟨1, 2, 200⟩) acctA acctB rfl rfl rfl

/-- C2.  Non-negativity: in every state reachable from the empty database
by validated `POST /accounts` and `POST /transfers` requests, every
account balance is ≥ 0 (creation admits only non-negative initial
balances, and a committed transfer never drives the source negative). -/
theorem balances_nonneg {s : BankState} (h : Reachable s) :
    ∀ a ∈ s.accounts, 0 ≤ a.balance :=
  (reachable_inv h).1

/-- C2 witness: the state after creating one account with balance 100. -/
theorem balances_nonneg_witness :
    (0 : ℚ) ≤ (⟨1, 1, "savings", "USD", 100⟩ : Account).balance :=
  balances_nonneg
    (s := ⟨[⟨1, 1, "savings", "USD", 100⟩], [], 2, 1⟩)
    (Reachable.account (u := 1) (d := ⟨"savings", "USD", 100⟩)
      (a := ⟨1, 1, "savings", "USD", 100⟩) Reachable.init (by decide))
    _ (by decide)

/-- C3 counterexample: the request from nonexistent account 1 with amount
0 violates check 1 (source missing) and check 7 (non-positive amount);
the claimed order (amount last) predicts `sourceNotFound`, but the code
reports `invalidAmount` (pydantic rejects the body before the endpoint
runs), so the earliest-listed violated check does *not* determine the
error. -/
theorem validation_order_counterexample :
    sourceMissing initialState ⟨1, 2, 0⟩ = true ∧
    amountInvalid ⟨1, 2, 0⟩ = true ∧
    claimedFirstError initialState 1 ⟨1, 2, 0⟩ = some .sourceNotFound ∧
    errorOf (request_create_transfer initialState 1 ⟨1, 2, 0⟩).2 = some .invalidAmount ∧
    TransferError.invalidAmount ≠ TransferError.sourceNotFound := by
  refine ⟨by decide, by decide, by decide, ?_, by decide⟩
  rw [request_error_eq_firstViolation]
  decide

/-- C3 (amended).  The error of a transfer request is determined by the
first violated check in the order: amount positivity (applied by the
schema layer *before* the engine; scale is never checked), then, inside
the engine, (1) source exists, (2) source owned, (3) destination exists,
(4) currencies match, (5) balance sufficient, (6) ids differ — each
stated as an independent predicate, so a request violating several of
them reports the earliest one in this order. -/
theorem validation_order_amended (s : BankState) (u : Nat) (t : TransferCreate) :
    errorOf (request_create_transfer s u t).2 = firstViolation s u t :=
  request_error_eq_firstViolation s u t

/-- C4.  Atomicity of rejection: a transfer request rejected by any
check leaves the state untouched — no balance changes, no `Transfer` row
is inserted and the id sequence does not advance (the whole post-state
equals the pre-state). -/
theorem rejected_transfer_preserves_state {s s' : BankState} {u : Nat}
    {t : TransferCreate} {e : TransferError}
    (h : request_create_transfer s u t = (s', .error e)) : s' = s := by
  unfold request_create_transfer at h
  by_cases hv : t.valid
  · rw [if_pos hv] at h
    rcases create_transfer_cases s u t with ⟨h1, _⟩ | hok
    · exact (congrArg Prod.fst h).symm.trans h1
    · rw [hok] at h
      exact absurd (congrArg Prod.snd h) (by simp)
  · rw [if_neg hv] at h
    exact (congrArg Prod.fst h).symm

/-- C4 witness: a request from a nonexistent source account is rejected
and the pre-state is preserved. -/
theorem rejected_transfer_preserves_state_witness :
    (request_create_transfer initialState 1 ⟨1, 2, 5⟩).1 = initialState :=
  rejected_transfer_preserves_state (s := initialState) (u := 1)
    (t := ⟨1, 2, 5⟩) (e := .sourceNotFound) rfl

/-- C5 counterexample: the amount 0.005 is positive but not
representable at scale 2, yet the request is rejected neither by the
schema (`gt=0` is its only constraint) nor by the engine — it commits.
So "the engine rejects … with `InvalidAmount`" and "no such request ever
commits" are both false for mis-scaled amounts. -/
theorem amount_revalidation_counterexample :
    (0 : ℚ) < q0005 ∧
    scale2 q0005 = false ∧
    (request_create_transfer twoAccounts 1 ⟨1, 2, q0005⟩).2 =
      .ok ⟨1, 1, 2, q0005⟩ := by
  refine ⟨by decide, by decide, rfl⟩

/-- C5 (amended).  Non-positive amounts are rejected — with
`invalidAmount` and no state change — by the schema layer *before* the
engine runs; the engine itself performs no amount validation at all (no
execution of `create_transfer` ever yields `invalidAmount`), and
positive mis-scaled amounts are rejected nowhere. -/
theorem amount_revalidation_amended {s : BankState} {u : Nat} {t : TransferCreate}
    (h : t.amount ≤ 0) :
    request_create_transfer s u t = (s, .error .invalidAmount) ∧
    ∀ (s2 : BankState) (u2 : Nat) (t2 : TransferCreate),
      errorOf (create_transfer s2 u2 t2).2 ≠ some .invalidAmount := by
  constructor
  · unfold request_create_transfer
    rw [if_neg]
    simp [TransferCreate.valid, not_lt.mpr h]
  · intro s2 u2 t2
    rcases create_transfer_cases s2 u2 t2 with ⟨_, e, hne, he⟩ | hok
    · rw [he]
      simp [errorOf]
      exact hne
    · rw [hok]
      simp [errorOf]

/-- C5 amended witness: amount 0 is rejected before the engine. -/
theorem amount_revalidation_amended_witness :
    request_create_transfer initialState 1 ⟨1, 2, 0⟩ =
      (initialState, .error .invalidAmount) :=
  (amount_revalidation_amended (s := initialState) (u := 1)
    (t := ⟨1, 2, 0⟩) (by norm_num)).1

/-- C6.  With source found, owned by the requestor, destination found
and currencies equal, the engine reports `insufficientBalance` iff the
source balance is strictly below the amount; at the boundary
`balance = amount` the check passes, and if additionally the ids differ
the transfer commits leaving the source balance exactly 0. -/
theorem insufficient_balance_iff {s : BankState} {u : Nat} {t : TransferCreate}
    {fa ta : Account}
    (hfa : findAccount s t.from_account_id = some fa)
    (hown : fa.user_id = u)
    (hta : findAccount s t.to_account_id = some ta)
    (hcur : fa.currency = ta.currency) :
    ((create_transfer s u t).2 = .error .insufficientBalance ↔
      fa.balance < t.amount) ∧
    (fa.balance = t.amount → t.from_account_id ≠ t.to_account_id →
      create_transfer s u t = (commitState s t, .ok (committedTransfer s t)) ∧
      findAccount (commitState s t) t.from_account_id =
        some { fa with balance := 0 }) := by
  constructor
  · by_cases hb : fa.balance < t.amount
    · simp [create_transfer, hfa, hta, hown, hcur, hb]
    · by_cases hsame : t.from_account_id = t.to_account_id
      · have hfata : fa = ta := by
          rw [hsame] at hfa
          exact Option.some.inj (hfa.symm.trans hta)
        subst hfata
        simp [create_transfer, hfa, hta, hown, hcur, hb, hsame]
      · simp [create_transfer, hfa, hta, hown, hcur, hb, hsame]
  · intro hbal hne
    have hb : ¬ fa.balance < t.amount := by
      rw [hbal]
      exact lt_irrefl _
    refine ⟨by simp [create_transfer, hfa, hta, hown, hcur, hb, hne], ?_⟩
    rw [findAccount_commitState, hfa]
    simp only [Option.map_some']
    unfold applyDelta
    rw [if_pos (findAccount_id hfa), hbal]
    simp

/-- C6 witness: a transfer of the full balance 1000 passes the check and
commits with the source at exactly 0. -/
theorem insufficient_balance_iff_witness :
    (((create_transfer twoAccounts 1 ⟨1, 2, 1000⟩).2 =
        .error .insufficientBalance ↔ acctA.balance < (1000 : ℚ)) ∧
      (acctA.balance = (1000 : ℚ) → (1 : Nat) ≠ 2 →
        create_transfer twoAccounts 1 ⟨1, 2, 1000⟩ =
          (commitState twoAccounts ⟨1, 2, 1000⟩,
            .ok (committedTransfer twoAccounts ⟨1, 2, 1000⟩)) ∧
        findAccount (commitState twoAccounts ⟨1, 2, 1000⟩) 1 =
          some { acctA with balance := 0 })) ∧
    acctA.balance = (1000 : ℚ) :=
  ⟨insufficient_balance_iff (s := twoAccounts) (u := 1) (t := ⟨1, 2, 1000⟩)
    rfl rfl rfl rfl, rfl⟩

/-- C8.  Currency normalization: `create_account` stores the uppercased
currency code, so two accounts created from codes equal up to letter
case carry identical stored currencies, and a transfer between two
accounts of equal stored currency is never rejected with
`currencyMismatch`. -/
theorem currency_normalization {s1 s2 : BankState} {u1 u2 : Nat}
    {d1 d2 : AccountCreate}
    (hcase : upper d1.currency = upper d2.currency) :
    (create_account s1 u1 d1).2.currency = upper d1.currency ∧
    (create_account s1 u1 d1).2.currency = (create_account s2 u2 d2).2.currency ∧
    ∀ (s : BankState) (u : Nat) (t : TransferCreate) (fa ta : Account),
      findAccount s t.from_account_id = some fa →
      findAccount s t.to_account_id = some ta →
      fa.currency = ta.currency →
      (create_transfer s u t).2 ≠ .error .currencyMismatch := by
  refine ⟨rfl, hcase, ?_⟩
  intro s u t fa ta hfa hta hcur
  by_cases ho : fa.user_id = u
  · by_cases hb : fa.balance < t.amount
    · simp [create_transfer, hfa, hta, hcur, ho, hb]
    · by_cases hsame : t.from_account_id = t.to_account_id
      · have hfata : fa = ta := by
          rw [hsame] at hfa
          exact Option.some.inj (hfa.symm.trans hta)
        subst hfata
        simp [create_transfer, hfa, hta, hcur, ho, hb, hsame]
      · simp [create_transfer, hfa, hta, hcur, ho, hb, hsame]
  · simp [create_transfer, hfa, ho]

/-- C8 witness: "usd" and "USD" are stored identically, and a transfer
between two USD accounts is not a currency mismatch. -/
theorem currency_normalization_witness :
    (create_account initialState 1 ⟨"checking", "usd", 0⟩).2.currency = upper "usd" ∧
    (create_account initialState 1 ⟨"checking", "usd", 0⟩).2.currency =
      (create_account initialState 2 ⟨"savings", "USD", 5⟩).2.currency ∧
    (create_transfer twoAccounts 1 ⟨1, 2, 200⟩).2 ≠ .error .currencyMismatch := by
  have h := @currency_normalization initialState initialState 1 2
    ⟨"checking", "usd", 0⟩ ⟨"savings", "USD", 5⟩ (by decide)
  exact ⟨h.1, h.2.1, h.2.2 twoAccounts 1 ⟨1, 2, 200⟩ acctA acctB rfl rfl rfl⟩

/-- C9.  Destination ownership is never checked: replacing the owner of
the destination account by anyone leaves the outcome of the transfer
unchanged — a transfer that passes all checks commits no matter who owns
the destination (only source ownership is verified). -/
theorem destination_ownership_irrelevant {s : BankState} {u w : Nat}
    {t : TransferCreate} (h : t.from_account_id ≠ t.to_account_id) :
    errorOf (create_transfer (setOwner s t.to_account_id w) u t).2 =
      errorOf (create_transfer s u t).2 := by
  cases hfa : findAccount s t.from_account_id with
  | none =>
    have hfa' : findAccount (setOwner s t.to_account_id w) t.from_account_id = none := by
      rw [findAccount_setOwner, hfa]
      rfl
    simp [create_transfer, hfa, hfa', errorOf]
  | some fa =>
    have hfa' : findAccount (setOwner s t.to_account_id w) t.from_account_id = some fa := by
      rw [findAccount_setOwner, hfa]
      simp only [Option.map_some']
      rw [if_neg (fun hh => h ((findAccount_id hfa).symm.trans hh))]
    cases hta : findAccount s t.to_account_id with
    | none =>
      have hta' : findAccount (setOwner s t.to_account_id w) t.to_account_id = none := by
        rw [findAccount_setOwner, hta]
        rfl
      by_cases ho : fa.user_id = u
      · simp [create_transfer, hfa, hfa', hta, hta', ho, errorOf]
      · simp [create_transfer, hfa, hfa', ho, errorOf]
    | some ta =>
      have hta' : findAccount (setOwner s t.to_account_id w) t.to_account_id =
          some { ta with user_id := w } := by
        rw [findAccount_setOwner, hta]
        simp only [Option.map_some']
        rw [if_pos (findAccount_id hta)]
      by_cases ho : fa.user_id = u
      · by_cases hc : fa.currency = ta.currency
        · by_cases hb : fa.balance < t.amount
          · simp [create_transfer, hfa, hfa', hta, hta', ho, hc, hb, errorOf]
          · simp [create_transfer, hfa, hfa', hta, hta', ho, hc, hb, h, errorOf]
        · simp [create_transfer, hfa, hfa', hta, hta', ho, hc, errorOf]
      · simp [create_transfer, hfa, hfa', ho, errorOf]

/-- C9 witness: account 2 (owned by user 2) re-owned to user 9 — the
outcome of user 1's transfer into it is unchanged. -/
theorem destination_ownership_irrelevant_witness :
    errorOf (create_transfer (setOwner twoAccounts 2 9) 1 ⟨1, 2, 200⟩).2 =
      errorOf (create_transfer twoAccounts 1 ⟨1, 2, 200⟩).2 :=
  destination_ownership_irrelevant (s := twoAccounts) (u := 1) (w := 9)
    (t := ⟨1, 2, 200⟩) (by decide)

/-- C10.  `get_account` filters by id *and* owner: when the id exists
but every row with that id belongs to someone else, the caller receives
exactly the 404 `"Account not found"` error — the same error value a
nonexistent id produces — never an authorization error. -/
theorem get_account_hides_foreign {s : BankState} {u accountId : Nat}
    (_hexists : ∃ a ∈ s.accounts, a.id = accountId)
    (hforeign : ∀ a ∈ s.accounts, a.id = accountId → a.user_id ≠ u) :
    get_account s u accountId = .error ⟨404, "Account not found"⟩ ∧
    ∀ s2 : BankState, (∀ a ∈ s2.accounts, a.id ≠ accountId) →
      get_account s2 u accountId = .error ⟨404, "Account not found"⟩ := by
  constructor
  · unfold get_account
    have hn : s.accounts.find? (fun a => a.id == accountId && a.user_id == u) = none := by
      rw [List.find?_eq_none]
      intro a ha
      simp only [Bool.and_eq_true, beq_iff_eq, not_and]
      exact fun h1 => hforeign a ha h1
    rw [hn]
  · intro s2 hs2
    unfold get_account
    have hn : s2.accounts.find? (fun a => a.id == accountId && a.user_id == u) = none := by
      rw [List.find?_eq_none]
      intro a ha
      simp only [Bool.and_eq_true, beq_iff_eq, not_and]
      exact fun h1 => absurd h1 (hs2 a ha)
    rw [hn]

/-- C10 witness: account 2 exists but is owned by user 2; user 1 gets
the same 404 as for the absent id 2 in the empty database. -/
theorem get_account_hides_foreign_witness :
    get_account twoAccounts 1 2 = .error ⟨404, "Account not found"⟩ ∧
    get_account initialState 1 2 = .error ⟨404, "Account not found"⟩ := by
  have h := @get_account_hides_foreign twoAccounts 1 2 (by decide) (by decide)
  exact ⟨h.1, h.2 initialState (by decide)⟩

end Banking
